import Mathlib

/-!
Verification of the client-side quiz controller (static/app.js).

The file shallowly embeds the page logic: pure string manipulation is
translated to functions on `List Char`, DOM state becomes explicit record
types, every network round trip becomes an explicit outcome parameter, and
each handler becomes a function from page state (plus the outcomes of the
round trips it performs) to the new page state together with the list of
observable events (requests issued, button toggles, dialogs) it produced
along the way.  JavaScript is single threaded and suspends only at `await`;
none of the handlers reads any of the mutable locations another in-flight
handler writes before its own suspension point, so a sequence of handler
invocations is modelled by sequential composition of these functions.
-/

namespace Quizlan

/-- Removal of the first occurrence of the two-character substring `[]`,
the behaviour of the JavaScript `name.replace('[]', '')` call in
`submitQuiz` (JS `String.prototype.replace` with a string pattern replaces
only the first occurrence). -/
def removeFirstBox : List Char → List Char
  | [] => []
  | '[' :: ']' :: rest => rest
  | c :: rest => c :: removeFirstBox rest

/-- `stripBox` lifts `removeFirstBox` to `String`. -/
def stripBox (s : String) : String := ⟨removeFirstBox s.data⟩

/-- Splitting a character list at every underscore, the behaviour of the
JavaScript `k.split('_')` call in `submitQuiz`. -/
def splitUnder : List Char → List (List Char)
  | [] => [[]]
  | '_' :: rest => [] :: splitUnder rest
  | c :: rest =>
    match splitUnder rest with
    | [] => [[c]]
    | g :: gs => (c :: g) :: gs

/-- The question-id recovery of `submitQuiz`: `k.split('_')[1]`.  Every key
the source applies this to starts with `q_`, so index 1 always exists; the
default is only for totality. -/
def fmtKey (k : String) : String := ((splitUnder k.data).map List.asString).getD 1 ""

/-- A rendered answer input: its DOM `name`, its `value` (the option label)
and whether it is currently checked. -/
structure Inp where
  name : String
  value : String
  checked : Bool
deriving DecidableEq, Repr

/-- One step of the `inputs.forEach` accumulation in `submitQuiz`: strip the
`[]` suffix from the input's name, create the entry with an empty list on
first sight of that name (`if (!answers[name]) answers[name] = []`), and
push the value when the input is checked. -/
def addInput (acc : List (String × List String)) (inp : Inp) :
    List (String × List String) :=
  let nm := stripBox inp.name
  let acc1 := if acc.any (fun p => p.1 = nm) then acc else acc ++ [(nm, [])]
  if inp.checked then
    acc1.map (fun p => if p.1 = nm then (p.1, p.2 ++ [inp.value]) else p)
  else acc1

/-- The `answers` object built by `submitQuiz` from all inputs whose name
starts with `q_`, as an insertion-ordered association list. -/
def collectAnswers (inputs : List Inp) : List (String × List String) :=
  inputs.foldl addInput []

/-- JavaScript object assignment `formatted[qid] = answers[k]`: replace the
value if the key exists (keeping its position), otherwise append. -/
def upsert (acc : List (String × List String)) (k : String) (v : List String) :
    List (String × List String) :=
  if acc.any (fun p => p.1 = k) then
    acc.map (fun p => if p.1 = k then (k, v) else p)
  else acc ++ [(k, v)]

/-- The `formatted` object of `submitQuiz`: re-key every entry of `answers`
by `k.split('_')[1]`. -/
def formatAnswers (answers : List (String × List String)) :
    List (String × List String) :=
  answers.foldl (fun acc p => upsert acc (fmtKey p.1) p.2) []

/-- The full serialization pipeline of `submitQuiz`: collect checked values
per input-name group, then re-key by the segment after the first underscore. -/
def serializeAnswers (inputs : List Inp) : List (String × List String) :=
  formatAnswers (collectAnswers inputs)

/-- The keys of an association list. -/
def keysOf (l : List (String × List String)) : List String := l.map Prod.fst

/-- An option of a question as delivered by `/api/quiz/:id`. -/
structure QOpt where
  label : String
  text : String
deriving DecidableEq, Repr

/-- A question as delivered by `/api/quiz/:id` and rendered by `loadQuiz`. -/
structure Question where
  id : String
  text : String
  multi : Bool
  options : List QOpt
deriving DecidableEq, Repr

/-- The DOM name `loadQuiz` gives every input of a question:
`'q_' + q.id + (q.multi ? '[]' : '')`. -/
def inputName (q : Question) : String :=
  "q_" ++ q.id ++ (if q.multi then "[]" else "")

/-- The inputs `loadQuiz` renders for a question set: one input per option
of each question, in order, named `inputName` and valued by the option
label.  `sel` is the current checked state of the form, keyed by input name
and value. -/
def renderInputs (qs : List Question) (sel : String → String → Bool) : List Inp :=
  qs.flatMap (fun q =>
    q.options.map (fun o => ⟨inputName q, o.label, sel (inputName q) o.label⟩))

/-- The key under which a question's selections end up in the serialized
answer mapping: its input name with the first `[]` stripped, then the
segment after the first underscore. -/
def derivedKey (q : Question) : String := fmtKey (stripBox (inputName q))

/-- The observable events of one `submitQuiz` invocation, in program order:
the confirmation dialog, disabling the submit button, the POST to
`/api/submit/:id` with its serialized body, the server's verdict on that
request, and re-enabling the button. -/
inductive Ev where
  | confirmDlg : Ev
  | disableBtn : Ev
  | submitReq : String → List (String × List String) → Ev
  | accepted : Ev
  | rejected : Ev
  | enableBtn : Ev
deriving DecidableEq, Repr

/-- The outcome of the `fetch('/api/submit/' + quizId)` round trip:
`netFail` when the fetch (or `res.json()`) rejects, otherwise the parsed
response `{ok, score, total, error}`. -/
inductive SubmitOutcome where
  | netFail : SubmitOutcome
  | reply : Bool → Nat → Nat → Option String → SubmitOutcome
deriving DecidableEq, Repr

/-- The mutable page state of the quiz view that the handlers touch: the
submit button's `disabled` flag, `#submitStatus`'s text and class, the
number of result modals appended to the body, the timer's `remaining`
closure variable, and whether the anti-cheat banner is showing. -/
structure QuizPage where
  btnDisabled : Bool
  statusText : String
  statusClass : String
  modalCount : Nat
  remaining : Int
  bannerShown : Bool
deriving DecidableEq, Repr

/-- The result of one `submitQuiz` invocation: the page state when the call
settles, its event trace and whether the async function rejected (a thrown
fetch failure propagates out of the function, skipping the final
`submitBtn.disabled = false`). -/
structure SubmitResult where
  state : QuizPage
  trace : List Ev
  threw : Bool
deriving DecidableEq, Repr

/-- `window.submitQuiz` from the quiz page.  `confirmAns` is the user's
answer to the `confirm(...)` dialog, `resp` the outcome of the submission
round trip, `inputs` the rendered answer inputs the `querySelectorAll`
scan sees.  A declined dialog returns at once; otherwise the button is
disabled, the answers serialized, the request issued, and — once a parsed
response is in hand — the status line and (on `ok`) the result modal are
produced before the button is unconditionally re-enabled. -/
def submitQuiz (confirmAns : Bool) (resp : SubmitOutcome) (quizId : String)
    (inputs : List Inp) (s : QuizPage) : SubmitResult :=
  if !confirmAns then ⟨s, [Ev.confirmDlg], false⟩
  else
    let s1 : QuizPage := { s with btnDisabled := true }
    let formatted := serializeAnswers inputs
    let pre := [Ev.confirmDlg, Ev.disableBtn, Ev.submitReq quizId formatted]
    match resp with
    | SubmitOutcome.netFail => ⟨s1, pre, true⟩
    | SubmitOutcome.reply ok score total err =>
      if ok then
        ⟨{ s1 with
            statusText := "Đã nộp! Điểm: " ++ toString score ++ "/" ++ toString total,
            statusClass := "text-success",
            modalCount := s1.modalCount + 1,
            btnDisabled := false },
          pre ++ [Ev.accepted, Ev.enableBtn], false⟩
      else
        ⟨{ s1 with
            statusText := err.getD "Lỗi nộp bài",
            statusClass := "text-danger",
            btnDisabled := false },
          pre ++ [Ev.rejected, Ev.enableBtn], false⟩

/-- Two `submitQuiz` invocations in rapid succession (a manual click racing
the timer-expiry call).  JavaScript is single threaded; the portion of
`submitQuiz` before its `await` never reads the locations the other
invocation writes, so any interleaving produces this sequential
composition's states and the union of its traces. -/
def runTwoSubmits (c1 c2 : Bool) (r1 r2 : SubmitOutcome) (quizId : String)
    (inputs : List Inp) (s : QuizPage) : SubmitResult :=
  let a := submitQuiz c1 r1 quizId inputs s
  let b := submitQuiz c2 r2 quizId inputs a.state
  ⟨b.state, a.trace ++ b.trace, a.threw || b.threw⟩

/-- Whether an event is the submission POST. -/
def isSubmitReq : Ev → Bool
  | Ev.submitReq _ _ => true
  | _ => false

/-- Number of submission requests in a trace. -/
def submitReqCount (t : List Ev) : Nat := t.countP isSubmitReq

/-- Number of accepted submissions in a trace (the `data.ok` branch ran). -/
def acceptedCount (t : List Ev) : Nat := t.count Ev.accepted

/-- The `tick` loop of the exam timer, run for at most `n` scheduled
fires starting from `remaining = r`: each tick decrements `remaining`; at
`remaining <= 0` it invokes `submitQuiz` (counted) and schedules nothing,
otherwise it schedules the next tick via `setTimeout(tick, 1000)`.  The
result is the final `remaining`, the number of automatic submission
invocations, and whether a further tick is still scheduled. -/
def runTicks : Int → Nat → Int × Nat × Bool
  | r, 0 => (r, 0, true)
  | r, Nat.succ n =>
    let rNew := r - 1
    if rNew ≤ 0 then (rNew, 1, false)
    else runTicks rNew n

/-- A single `tick` fire at `remaining = r`, made explicit about what it
invokes: at expiry it calls `submitQuiz(QUIZ_ID)` — the very same function
as the manual button — and schedules no further tick; otherwise it only
reschedules.  Returns the new remaining, whether a next tick is scheduled,
and the result of the `submitQuiz` invocation when one happened. -/
def tickAt (r : Int) (confirmAns : Bool) (resp : SubmitOutcome)
    (quizId : String) (inputs : List Inp) (s : QuizPage) :
    Int × Bool × Option SubmitResult :=
  let rNew := r - 1
  if rNew ≤ 0 then (rNew, false, some (submitQuiz confirmAns resp quizId inputs s))
  else (rNew, true, none)

/-- The observable events of the blur listener. -/
inductive LogEv where
  | banner : String → LogEv
  | logReq : String → String → String → LogEv
deriving DecidableEq, Repr

/-- The `window` blur listener of the quiz page: show the transient
anti-cheat banner, then fire-and-forget a POST to `/log_event` with
`{quiz_id, student, event: 'blur'}`.  The fetch promise carries a
`.catch(() => {})` and the whole call sits in a `try`, so both outcomes of
the round trip are swallowed and the handler always returns normally. -/
def blurHandler (quizId student : String) (logOutcome : Except Unit Unit)
    (s : QuizPage) : QuizPage × List LogEv :=
  let s1 : QuizPage := { s with bannerShown := true }
  let evs := [LogEv.banner "⚠️ Bạn vừa rời khỏi tab — hành động có thể bị ghi nhận.",
              LogEv.logReq quizId student "blur"]
  match logOutcome with
  | Except.ok _ => (s1, evs)
  | Except.error _ => (s1, evs)

/-- JavaScript `String.prototype.trim`: drop whitespace from both ends. -/
def trimStr (s : String) : String :=
  ⟨((s.data.dropWhile Char.isWhitespace).reverse.dropWhile Char.isWhitespace).reverse⟩

/-- A network request issued by the landing page. -/
inductive Req where
  | checkReq : String → Req
  | registerReq : String → String → Req
  | joinReq : String → Req
deriving DecidableEq, Repr

/-- What the server answers to `/api/register` and `/api/join` during one
`joinQuiz` run: `{ok, error}` for register, `{ok, quiz_id, error}` for join. -/
structure JoinEnv where
  regOk : Bool
  regErr : Option String
  joinOk : Bool
  quizId : String
  joinErr : Option String
deriving DecidableEq, Repr

/-- How a `joinQuiz` run ends: an inline `#joinStatus` message, or the
redirect `location.href = '/quiz/' + data.quiz_id`. -/
inductive JOut where
  | status : String → JOut
  | navigate : String → JOut
deriving DecidableEq, Repr

/-- `joinQuiz` from the landing page.  `cls` and `name` are the dropdown
values (empty string when nothing is selected), `currentCode` the module
global holding the last verified access code.  The run validates class and
name locally, then registers, then joins — each later step gated on the
one before it — and the returned request list records exactly which
endpoints were called, in order. -/
def joinQuiz (cls nm currentCode : String) (env : JoinEnv) : JOut × List Req :=
  if cls = "" then (JOut.status "Vui lòng chọn lớp!", [])
  else if nm = "" then (JOut.status "Vui lòng chọn tên!", [])
  else if !env.regOk then
    (JOut.status (env.regErr.getD "Lỗi lưu tên"), [Req.registerReq nm cls])
  else if env.joinOk then
    (JOut.navigate ("/quiz/" ++ env.quizId),
      [Req.registerReq nm cls, Req.joinReq currentCode])
  else
    (JOut.status (env.joinErr.getD "Lỗi tham gia"),
      [Req.registerReq nm cls, Req.joinReq currentCode])

/-- The landing page's mutable state: the `currentCode` global, the two
status lines, which of the two forms is displayed, and where the page
navigated on a successful join.  `verified` is a ghost history variable
recording every code for which `/api/check_code` answered `ok: true`; no
handler reads it. -/
structure Landing where
  currentCode : String
  codeStatus : String
  joinStatus : String
  studentFormVisible : Bool
  navigatedTo : Option String
  verified : List String
deriving DecidableEq, Repr

/-- Modelled from the spec: the landing markup (the index page, which is
not part of the script) serves the student form — class/name dropdowns and
the join button — hidden, and `checkCode` reveals it only on a verified
code (`AccessSession must be verified before Session Joiner runs`); the
script itself shows this in `checkCode`'s `style.display = 'block'`
transition.  `currentCode` starts as the empty string
(`let currentCode = ''`). -/
def initLanding : Landing :=
  ⟨"", "", "", false, none, []⟩

/-- `checkCode` from the landing page.  `input` is the raw `#access_code`
value, `ok`/`err` the parsed `/api/check_code` response.  An empty trimmed
code fails locally with no request; a verified code is retained in
`currentCode`, the code form is swapped for the student form, and the ghost
`verified` list records the success. -/
def checkCode (input : String) (ok : Bool) (err : Option String) (s : Landing) :
    Landing × List Req :=
  let code := trimStr input
  if code = "" then
    ({ s with codeStatus := "Vui lòng nhập mã kỳ thi!" }, [])
  else if ok then
    ({ s with
        currentCode := code,
        codeStatus := "",
        studentFormVisible := true,
        verified := code :: s.verified }, [Req.checkReq code])
  else
    ({ s with codeStatus := err.getD "Lỗi kiểm tra mã" }, [Req.checkReq code])

/-- A user-driven event on the landing page: a click on the code check
button (with the typed code and the server's answer), or a click on the
join button (with the dropdown values and the answers of the register and
join endpoints). -/
inductive LEv where
  | check : String → Bool → Option String → LEv
  | join : String → String → JoinEnv → LEv
deriving DecidableEq, Repr

/-- One landing-page event.  Modelled from the spec where the markup is
missing: the join button lives inside the student form, which is hidden
until a code is verified, so a join event while that form is not displayed
cannot be clicked and is a no-op; once visible, it runs `joinQuiz` against
the retained `currentCode`, exactly as the script wires it. -/
def stepL (s : Landing) : LEv → Landing × List Req
  | LEv.check input ok err => checkCode input ok err s
  | LEv.join cls nm env =>
    if s.studentFormVisible then
      match joinQuiz cls nm s.currentCode env with
      | (JOut.status msg, reqs) => ({ s with joinStatus := msg }, reqs)
      | (JOut.navigate url, reqs) => ({ s with navigatedTo := some url }, reqs)
    else (s, [])

/-- A sequence of landing-page events, returning the final state and the
concatenation of all requests issued. -/
def runL (s : Landing) : List LEv → Landing × List Req
  | [] => (s, [])
  | e :: es =>
    ((runL (stepL s e).1 es).1, (stepL s e).2 ++ (runL (stepL s e).1 es).2)

/-- The quiz page as first rendered: submit button enabled, empty status
line, no modal, no banner, `remaining = DURATION` (5 in the examples). -/
def initQuizPage : QuizPage := ⟨false, "", "", 0, 5, false⟩

/-- The invariant the landing page maintains: whenever the student form
(and with it the join button) is displayed, the retained `currentCode` is
one of the codes `/api/check_code` has answered `ok: true` for. -/
def LandingInv (s : Landing) : Prop :=
  s.studentFormVisible = true → s.currentCode ∈ s.verified

end Quizlan

namespace Quizlan

/-- One tick with more than one second left only decrements and
reschedules. -/
theorem runTicks_gt_one (r : Int) (n : Nat) (h : 1 < r) :
    runTicks r (Nat.succ n) = runTicks (r - 1) n := by
  have hneg : ¬ (r - 1 ≤ 0) := by omega
  simp [runTicks, hneg]

/-- The tick that drives `remaining` from 1 to 0 fires the automatic
submission and schedules nothing, whatever the horizon. -/
theorem runTicks_one (n : Nat) : runTicks 1 (Nat.succ n) = (0, 1, false) := by
  simp [runTicks]

end Quizlan

/-- C4: starting the exam timer with duration 5, four ticks leave
`remaining = 1` with the next tick still scheduled, and from the fifth tick
on — whatever the horizon — `remaining` is 0, the submission controller has
been invoked automatically exactly once, and no further tick is
scheduled. -/
theorem C4_timer_duration5 :
    Quizlan.runTicks 5 4 = (1, 0, true) ∧
    ∀ n : Nat, Quizlan.runTicks 5 (5 + n) = (0, 1, false) := by
  refine ⟨by decide, fun n => ?_⟩
  have e1 : 5 + n = Nat.succ (4 + n) := by omega
  have e2 : 4 + n = Nat.succ (3 + n) := by omega
  have e3 : 3 + n = Nat.succ (2 + n) := by omega
  have e4 : 2 + n = Nat.succ (1 + n) := by omega
  have e5 : 1 + n = Nat.succ n := by omega
  have f1 : (5 : Int) - 1 = 4 := by norm_num
  have f2 : (4 : Int) - 1 = 3 := by norm_num
  have f3 : (3 : Int) - 1 = 2 := by norm_num
  have f4 : (2 : Int) - 1 = 1 := by norm_num
  rw [e1, Quizlan.runTicks_gt_one _ _ (by norm_num), f1,
      e2, Quizlan.runTicks_gt_one _ _ (by norm_num), f2,
      e3, Quizlan.runTicks_gt_one _ _ (by norm_num), f3,
      e4, Quizlan.runTicks_gt_one _ _ (by norm_num), f4,
      e5]
  exact Quizlan.runTicks_one n

/-- C10: a declined confirmation dialog returns from `submitQuiz` at once —
the page state is returned unchanged, the trace holds nothing but the
dialog (no button disabling, no answer collection, no request) and nothing
is thrown; and the expiry tick that performed the invocation schedules no
further tick, so the attempt can end with no submission ever sent. -/
theorem C10_decline_is_pure :
    ∀ (resp : Quizlan.SubmitOutcome) (qid : String) (inputs : List Quizlan.Inp)
      (s : Quizlan.QuizPage) (n : Nat),
      Quizlan.submitQuiz false resp qid inputs s =
        ⟨s, [Quizlan.Ev.confirmDlg], false⟩ ∧
      Quizlan.tickAt 1 false resp qid inputs s =
        (0, false, some ⟨s, [Quizlan.Ev.confirmDlg], false⟩) ∧
      (Quizlan.runTicks 1 (Nat.succ n)).2.2 = false := by
  intro resp qid inputs s n
  refine ⟨by simp [Quizlan.submitQuiz], ?_, by rw [Quizlan.runTicks_one]⟩
  simp [Quizlan.tickAt, Quizlan.submitQuiz]

/-- C9: the blur listener always emits the banner followed by a `/log_event`
report carrying the quiz identifier, the student name and the event kind
`blur`; its result does not depend on the outcome of that fetch (the
rejection is swallowed by the `.catch` and `try`), and the only page state
it touches is the banner flag — timer and submission state pass through
unchanged. -/
theorem C9_blur_reports_and_swallows :
    ∀ (qid student : String) (o : Except Unit Unit) (s : Quizlan.QuizPage),
      (Quizlan.blurHandler qid student o s).2 =
        [Quizlan.LogEv.banner "⚠️ Bạn vừa rời khỏi tab — hành động có thể bị ghi nhận.",
         Quizlan.LogEv.logReq qid student "blur"] ∧
      Quizlan.blurHandler qid student o s =
        Quizlan.blurHandler qid student (Except.ok ()) s ∧
      (Quizlan.blurHandler qid student o s).1 = { s with bannerShown := true } := by
  intro qid student o s
  cases o <;> simp [Quizlan.blurHandler]

/-- C3 counterexample: the timer-expiry invocation is the very same
`submitQuiz` as the manual button, its trace contains the confirmation
dialog, and when that dialog is declined no submission request is issued —
so the automatic submission does not proceed without asking for
confirmation. -/
theorem C3_counterexample :
    (Quizlan.tickAt 1 true (Quizlan.SubmitOutcome.reply true 1 2 none) "Q9" []
        Quizlan.initQuizPage).2.2 =
      some (Quizlan.submitQuiz true (Quizlan.SubmitOutcome.reply true 1 2 none) "Q9" []
        Quizlan.initQuizPage) ∧
    Quizlan.Ev.confirmDlg ∈
      (Quizlan.submitQuiz true (Quizlan.SubmitOutcome.reply true 1 2 none) "Q9" []
        Quizlan.initQuizPage).trace ∧
    Quizlan.submitReqCount
      (Quizlan.submitQuiz false (Quizlan.SubmitOutcome.reply true 1 2 none) "Q9" []
        Quizlan.initQuizPage).trace = 0 := by decide

/-- C3 amended: both triggers ask the same explicit confirmation — every
`submitQuiz` invocation (manual or the one the expiry tick performs) begins
with the confirmation dialog, the expiry tick invokes exactly `submitQuiz`,
and a declined dialog issues no submission request. -/
theorem C3_both_triggers_confirm :
    ∀ (c : Bool) (resp : Quizlan.SubmitOutcome) (qid : String)
      (inputs : List Quizlan.Inp) (s : Quizlan.QuizPage),
      (Quizlan.submitQuiz c resp qid inputs s).trace.head? =
        some Quizlan.Ev.confirmDlg ∧
      (Quizlan.tickAt 1 c resp qid inputs s).2.2 =
        some (Quizlan.submitQuiz c resp qid inputs s) ∧
      Quizlan.submitReqCount
        (Quizlan.submitQuiz false resp qid inputs s).trace = 0 := by
  intro c resp qid inputs s
  refine ⟨?_, by simp [Quizlan.tickAt], ?_⟩
  · cases c with
    | false => simp [Quizlan.submitQuiz]
    | true =>
      cases resp with
      | netFail => simp [Quizlan.submitQuiz]
      | reply ok sc tot err => cases ok <;> simp [Quizlan.submitQuiz]
  · simp [Quizlan.submitQuiz, Quizlan.submitReqCount, Quizlan.isSubmitReq]

/-- C2 counterexample: an accepted submission (server answered `ok: true`,
the success branch ran) ends with the submit button re-enabled, and a
thrown network failure ends with it still disabled — the control is not
re-enabled if-and-only-if the submission failed. -/
theorem C2_counterexample :
    Quizlan.acceptedCount
      (Quizlan.submitQuiz true (Quizlan.SubmitOutcome.reply true 1 2 none) "Q9" []
        Quizlan.initQuizPage).trace = 1 ∧
    (Quizlan.submitQuiz true (Quizlan.SubmitOutcome.reply true 1 2 none) "Q9" []
        Quizlan.initQuizPage).state.btnDisabled = false ∧
    (Quizlan.submitQuiz true Quizlan.SubmitOutcome.netFail "Q9" []
        Quizlan.initQuizPage).state.btnDisabled = true := by decide

/-- C2 amended: once the confirmation is granted, `submitQuiz` disables the
submit control before issuing the network request (the trace starts
dialog, disable, request); whenever the round trip yields a parsed
response — accepted or rejected alike — the control is unconditionally
re-enabled and the call returns normally; when the fetch throws, the call
rejects and the control stays disabled. -/
theorem C2_disable_reenable :
    (∀ (resp : Quizlan.SubmitOutcome) (qid : String) (inputs : List Quizlan.Inp)
        (s : Quizlan.QuizPage), ∃ rest,
      (Quizlan.submitQuiz true resp qid inputs s).trace =
        Quizlan.Ev.confirmDlg :: Quizlan.Ev.disableBtn ::
          Quizlan.Ev.submitReq qid (Quizlan.serializeAnswers inputs) :: rest) ∧
    (∀ (ok : Bool) (sc tot : Nat) (err : Option String) (qid : String)
        (inputs : List Quizlan.Inp) (s : Quizlan.QuizPage),
      (Quizlan.submitQuiz true (Quizlan.SubmitOutcome.reply ok sc tot err) qid inputs
          s).state.btnDisabled = false ∧
      (Quizlan.submitQuiz true (Quizlan.SubmitOutcome.reply ok sc tot err) qid inputs
          s).threw = false) ∧
    (∀ (qid : String) (inputs : List Quizlan.Inp) (s : Quizlan.QuizPage),
      (Quizlan.submitQuiz true Quizlan.SubmitOutcome.netFail qid inputs
          s).state.btnDisabled = true ∧
      (Quizlan.submitQuiz true Quizlan.SubmitOutcome.netFail qid inputs
          s).threw = true) := by
  refine ⟨fun resp qid inputs s => ?_, fun ok sc tot err qid inputs s => ?_,
    fun qid inputs s => ?_⟩
  · cases resp with
    | netFail => exact ⟨[], by simp [Quizlan.submitQuiz]⟩
    | reply ok sc tot err =>
      cases ok with
      | false => exact ⟨[Quizlan.Ev.rejected, Quizlan.Ev.enableBtn], by simp [Quizlan.submitQuiz]⟩
      | true => exact ⟨[Quizlan.Ev.accepted, Quizlan.Ev.enableBtn], by simp [Quizlan.submitQuiz]⟩
  · cases ok <;> simp [Quizlan.submitQuiz]
  · simp [Quizlan.submitQuiz]

/-- C1 counterexample: a manual click and the timer-expiry call in rapid
succession, both confirmed and both answered `ok: true` by the server,
issue two submission requests and both are accepted — more than the
claimed at-most-one, and the second invocation was not rejected by any
local guard even though the first had already been accepted. -/
theorem C1_counterexample :
    Quizlan.acceptedCount
      (Quizlan.runTwoSubmits true true (Quizlan.SubmitOutcome.reply true 1 2 none)
        (Quizlan.SubmitOutcome.reply true 1 2 none) "Q9" []
        Quizlan.initQuizPage).trace = 2 ∧
    Quizlan.submitReqCount
      (Quizlan.runTwoSubmits true true (Quizlan.SubmitOutcome.reply true 1 2 none)
        (Quizlan.SubmitOutcome.reply true 1 2 none) "Q9" []
        Quizlan.initQuizPage).trace = 2 := by decide

/-- C1 amended: one `submitQuiz` invocation issues at most one submission
request, but there is no cross-invocation guard — after an accepted
submission a further confirmed invocation still issues exactly one more
request, and two confirmed invocations whose requests the server accepts
produce two accepted submissions for the attempt. -/
theorem C1_no_local_guard :
    (∀ (c : Bool) (resp : Quizlan.SubmitOutcome) (qid : String)
        (inputs : List Quizlan.Inp) (s : Quizlan.QuizPage),
      Quizlan.submitReqCount (Quizlan.submitQuiz c resp qid inputs s).trace ≤ 1) ∧
    (∀ (r2 : Quizlan.SubmitOutcome) (sc tot : Nat) (qid : String)
        (inputs : List Quizlan.Inp) (s : Quizlan.QuizPage),
      Quizlan.submitReqCount
        (Quizlan.submitQuiz true r2 qid inputs
          (Quizlan.submitQuiz true (Quizlan.SubmitOutcome.reply true sc tot none) qid
            inputs s).state).trace = 1) ∧
    (∀ (sc tot sc2 tot2 : Nat) (qid : String) (inputs : List Quizlan.Inp)
        (s : Quizlan.QuizPage),
      Quizlan.acceptedCount
        (Quizlan.runTwoSubmits true true (Quizlan.SubmitOutcome.reply true sc tot none)
          (Quizlan.SubmitOutcome.reply true sc2 tot2 none) qid inputs s).trace = 2) := by
  have single : ∀ (c : Bool) (resp : Quizlan.SubmitOutcome) (qid : String)
      (inputs : List Quizlan.Inp) (s : Quizlan.QuizPage),
      Quizlan.submitReqCount (Quizlan.submitQuiz c resp qid inputs s).trace =
        if c then 1 else 0 := by
    intro c resp qid inputs s
    cases c with
    | false => simp [Quizlan.submitQuiz, Quizlan.submitReqCount, Quizlan.isSubmitReq]
    | true =>
      cases resp with
      | netFail => simp [Quizlan.submitQuiz, Quizlan.submitReqCount, Quizlan.isSubmitReq]
      | reply ok sc tot err =>
        cases ok <;>
          simp [Quizlan.submitQuiz, Quizlan.submitReqCount, Quizlan.isSubmitReq]
  refine ⟨fun c resp qid inputs s => ?_, fun r2 sc tot qid inputs s => ?_,
    fun sc tot sc2 tot2 qid inputs s => ?_⟩
  · rw [single]; cases c <;> simp
  · rw [single]; simp
  · have acc : ∀ (sc tot : Nat) (qid : String) (inputs : List Quizlan.Inp)
        (s : Quizlan.QuizPage),
        List.count Quizlan.Ev.accepted
          (Quizlan.submitQuiz true (Quizlan.SubmitOutcome.reply true sc tot none) qid
            inputs s).trace = 1 := by
      intro sc tot qid inputs s
      simp [Quizlan.submitQuiz]
    simp only [Quizlan.runTwoSubmits, Quizlan.acceptedCount, List.count_append]
    rw [acc, acc]

/-- C7: `joinQuiz` proceeds in the fixed order — an unselected class fails
with the no-class message before any network call; an unselected name fails
with the no-name message before the register call; a failed register
surfaces its error (or the fallback) and never reaches the join endpoint;
only after a successful register is the join endpoint called, navigating to
the quiz on `ok` and surfacing the server error otherwise. -/
theorem C7_join_order :
    (∀ (nm code : String) (env : Quizlan.JoinEnv),
      Quizlan.joinQuiz "" nm code env =
        (Quizlan.JOut.status "Vui lòng chọn lớp!", [])) ∧
    (∀ (cls code : String) (env : Quizlan.JoinEnv), cls ≠ "" →
      Quizlan.joinQuiz cls "" code env =
        (Quizlan.JOut.status "Vui lòng chọn tên!", [])) ∧
    (∀ (cls nm code : String) (env : Quizlan.JoinEnv), cls ≠ "" → nm ≠ "" →
      env.regOk = false →
      Quizlan.joinQuiz cls nm code env =
        (Quizlan.JOut.status (env.regErr.getD "Lỗi lưu tên"),
          [Quizlan.Req.registerReq nm cls])) ∧
    (∀ (cls nm code : String) (env : Quizlan.JoinEnv), cls ≠ "" → nm ≠ "" →
      env.regOk = true →
      (Quizlan.joinQuiz cls nm code env).2 =
        [Quizlan.Req.registerReq nm cls, Quizlan.Req.joinReq code] ∧
      (env.joinOk = true →
        (Quizlan.joinQuiz cls nm code env).1 =
          Quizlan.JOut.navigate ("/quiz/" ++ env.quizId)) ∧
      (env.joinOk = false →
        (Quizlan.joinQuiz cls nm code env).1 =
          Quizlan.JOut.status (env.joinErr.getD "Lỗi tham gia"))) := by
  refine ⟨fun nm code env => by simp [Quizlan.joinQuiz],
    fun cls code env hc => by simp [Quizlan.joinQuiz, hc],
    fun cls nm code env hc hn hr => by simp [Quizlan.joinQuiz, hc, hn, hr],
    fun cls nm code env hc hn hr => ?_⟩
  refine ⟨?_, fun hj => ?_, fun hj => ?_⟩ <;>
    cases hjo : env.joinOk <;>
      simp_all [Quizlan.joinQuiz, hc, hn, hr]

/-- C7 witness: the concrete sequence — a missing name stops before
register, and with class `10A`, name `An` and both endpoints succeeding the
run issues exactly register-then-join. -/
theorem C7_join_order_witness :
    Quizlan.joinQuiz "10A" "" "AB" ⟨true, none, true, "Q9", none⟩ =
      (Quizlan.JOut.status "Vui lòng chọn tên!", []) ∧
    (Quizlan.joinQuiz "10A" "An" "AB" ⟨true, none, true, "Q9", none⟩).2 =
      [Quizlan.Req.registerReq "An" "10A", Quizlan.Req.joinReq "AB"] :=
  ⟨C7_join_order.2.1 "10A" "AB" ⟨true, none, true, "Q9", none⟩ (by decide),
   (C7_join_order.2.2.2 "10A" "An" "AB" ⟨true, none, true, "Q9", none⟩ (by decide)
     (by decide) rfl).1⟩

namespace Quizlan

/-- Updating the values of matching entries leaves the key list alone
(the `answers[name].push(...)` step of the collection scan). -/
theorem keysOf_map_push (l : List (String × List String)) (nm : String)
    (v : String) :
    keysOf (l.map fun p => if p.1 = nm then (p.1, p.2 ++ [v]) else p) =
      keysOf l := by
  induction l with
  | nil => rfl
  | cons a t ih =>
    by_cases h : a.1 = nm <;> simp [keysOf, h] <;> simpa [keysOf] using ih

/-- Replacing the value under an existing key leaves the key list alone
(the `formatted[qid] = answers[k]` overwrite). -/
theorem keysOf_map_replace (l : List (String × List String)) (k : String)
    (v : List String) :
    keysOf (l.map fun p => if p.1 = k then (k, v) else p) = keysOf l := by
  induction l with
  | nil => rfl
  | cons a t ih =>
    by_cases h : a.1 = k <;> simp [keysOf, h] <;> simpa [keysOf] using ih

/-- The key-presence test of the collection scan agrees with key-list
membership. -/
theorem any_eq_mem_keysOf (l : List (String × List String)) (nm : String) :
    (l.any fun p => p.1 = nm) = true ↔ nm ∈ keysOf l := by
  constructor
  · intro h
    rcases List.any_eq_true.mp h with ⟨p, hp, he⟩
    exact List.mem_map.mpr ⟨p, hp, of_decide_eq_true he⟩
  · intro h
    rcases List.mem_map.mp h with ⟨p, hp, he⟩
    exact List.any_eq_true.mpr ⟨p, hp, decide_eq_true he⟩

/-- The keys after one step of the collection scan: unchanged when the
input's stripped name was already a key, otherwise that name is appended. -/
theorem keysOf_addInput (acc : List (String × List String)) (i : Inp) :
    keysOf (addInput acc i) =
      if (acc.any fun p => p.1 = stripBox i.name) = true then keysOf acc
      else keysOf acc ++ [stripBox i.name] := by
  unfold addInput
  by_cases hin : (acc.any fun p => p.1 = stripBox i.name) = true <;>
    cases hc : i.checked <;>
      simp [hin, hc, keysOf_map_push, keysOf] <;>
        (intro a b _; by_cases h2 : a = stripBox i.name <;> simp [h2])

/-- Keys already collected survive one more input of the scan. -/
theorem mem_keysOf_addInput (acc : List (String × List String)) (i : Inp)
    (k : String) (h : k ∈ keysOf acc) : k ∈ keysOf (addInput acc i) := by
  rw [keysOf_addInput]
  split <;> simp [List.mem_append, h]

/-- After the scan has seen an input, its stripped name is a key. -/
theorem self_mem_keysOf_addInput (acc : List (String × List String)) (i : Inp) :
    stripBox i.name ∈ keysOf (addInput acc i) := by
  rw [keysOf_addInput]
  split
  · exact (any_eq_mem_keysOf acc _).mp (by assumption)
  · simp

/-- Every key after one step of the scan was a key before or is the
stripped name of the new input. -/
theorem mem_keysOf_addInput_sub (acc : List (String × List String)) (i : Inp)
    (k : String) (h : k ∈ keysOf (addInput acc i)) :
    k ∈ keysOf acc ∨ k = stripBox i.name := by
  rw [keysOf_addInput] at h
  by_cases hin : (acc.any fun p => p.1 = stripBox i.name) = true
  · rw [if_pos hin] at h
    exact Or.inl h
  · rw [if_neg hin] at h
    rcases List.mem_append.mp h with h1 | h1
    · exact Or.inl h1
    · simp at h1
      exact Or.inr h1


/-- The keys after one overwrite step of the re-keying pass: unchanged when
the key existed, otherwise the key is appended. -/
theorem keysOf_upsert (acc : List (String × List String)) (k : String)
    (v : List String) :
    keysOf (upsert acc k v) =
      if (acc.any fun p => p.1 = k) = true then keysOf acc
      else keysOf acc ++ [k] := by
  unfold upsert
  by_cases hin : (acc.any fun p => p.1 = k) = true
  all_goals simp [hin, keysOf_map_replace, keysOf]
  all_goals intro a b _
  all_goals by_cases h2 : a = k <;> simp [h2]

/-- Keys survive one overwrite step of the re-keying pass. -/
theorem mem_keysOf_upsert (acc : List (String × List String)) (k : String)
    (v : List String) (k0 : String) (h : k0 ∈ keysOf acc) :
    k0 ∈ keysOf (upsert acc k v) := by
  rw [keysOf_upsert]
  split <;> simp [List.mem_append, h]

/-- The overwritten key is present after the overwrite step. -/
theorem self_mem_keysOf_upsert (acc : List (String × List String)) (k : String)
    (v : List String) : k ∈ keysOf (upsert acc k v) := by
  rw [keysOf_upsert]
  split
  · exact (any_eq_mem_keysOf acc _).mp (by assumption)
  · simp

/-- Every key after an overwrite step was a key before or is the
overwritten key. -/
theorem mem_keysOf_upsert_sub (acc : List (String × List String)) (k : String)
    (v : List String) (k0 : String) (h : k0 ∈ keysOf (upsert acc k v)) :
    k0 ∈ keysOf acc ∨ k0 = k := by
  rw [keysOf_upsert] at h
  by_cases hin : (acc.any fun p => p.1 = k) = true
  · rw [if_pos hin] at h
    exact Or.inl h
  · rw [if_neg hin] at h
    rcases List.mem_append.mp h with h1 | h1
    · exact Or.inl h1
    · simp at h1
      exact Or.inr h1

/-- Keys survive the remainder of the collection scan. -/
theorem mem_keysOf_foldl_addInput (inputs : List Inp)
    (acc : List (String × List String)) (k : String) (h : k ∈ keysOf acc) :
    k ∈ keysOf (inputs.foldl addInput acc) := by
  induction inputs generalizing acc with
  | nil => exact h
  | cons i t ih => exact ih _ (mem_keysOf_addInput _ _ _ h)

/-- Every scanned input leaves its stripped name among the collected keys. -/
theorem stripBox_mem_keysOf_foldl (inputs : List Inp)
    (acc : List (String × List String)) (i : Inp) (hi : i ∈ inputs) :
    stripBox i.name ∈ keysOf (inputs.foldl addInput acc) := by
  induction inputs generalizing acc with
  | nil => cases hi
  | cons a t ih =>
    rcases List.mem_cons.mp hi with h | h
    · subst h
      exact mem_keysOf_foldl_addInput t _ _ (self_mem_keysOf_addInput acc i)
    · exact ih _ h

/-- Every collected key is the stripped name of one of the scanned inputs. -/
theorem keysOf_foldl_addInput_sub (inputs : List Inp)
    (acc : List (String × List String)) (k : String)
    (h : k ∈ keysOf (inputs.foldl addInput acc)) :
    k ∈ keysOf acc ∨ ∃ i, i ∈ inputs ∧ k = stripBox i.name := by
  induction inputs generalizing acc with
  | nil => exact Or.inl h
  | cons a t ih =>
    rcases ih _ h with h1 | ⟨i, hi, he⟩
    · rcases mem_keysOf_addInput_sub _ _ _ h1 with h2 | h2
      · exact Or.inl h2
      · exact Or.inr ⟨a, List.mem_cons_self a t, h2⟩
    · exact Or.inr ⟨i, List.mem_cons_of_mem a hi, he⟩

/-- Keys survive the remainder of the re-keying pass. -/
theorem mem_keysOf_foldl_upsert (answers : List (String × List String))
    (acc : List (String × List String)) (k0 : String) (h : k0 ∈ keysOf acc) :
    k0 ∈ keysOf (answers.foldl (fun acc p => upsert acc (fmtKey p.1) p.2) acc) := by
  induction answers generalizing acc with
  | nil => exact h
  | cons p t ih => exact ih _ (mem_keysOf_upsert _ _ _ _ h)

/-- Every re-keyed entry leaves its formatted key among the final keys. -/
theorem fmtKey_mem_keysOf_foldl (answers : List (String × List String))
    (acc : List (String × List String)) (p : String × List String)
    (hp : p ∈ answers) :
    fmtKey p.1 ∈
      keysOf (answers.foldl (fun acc p => upsert acc (fmtKey p.1) p.2) acc) := by
  induction answers generalizing acc with
  | nil => cases hp
  | cons a t ih =>
    rcases List.mem_cons.mp hp with h | h
    · subst h
      exact mem_keysOf_foldl_upsert t _ _ (self_mem_keysOf_upsert acc _ _)
    · exact ih _ h

/-- Every key of the re-keying pass is the formatted key of some entry. -/
theorem keysOf_foldl_upsert_sub (answers : List (String × List String))
    (acc : List (String × List String)) (k0 : String)
    (h : k0 ∈ keysOf (answers.foldl (fun acc p => upsert acc (fmtKey p.1) p.2) acc)) :
    k0 ∈ keysOf acc ∨ ∃ p, p ∈ answers ∧ k0 = fmtKey p.1 := by
  induction answers generalizing acc with
  | nil => exact Or.inl h
  | cons a t ih =>
    rcases ih _ h with h1 | ⟨p, hp, he⟩
    · rcases mem_keysOf_upsert_sub _ _ _ _ h1 with h2 | h2
      · exact Or.inl h2
      · exact Or.inr ⟨a, List.mem_cons_self a t, h2⟩
    · exact Or.inr ⟨p, List.mem_cons_of_mem a hp, he⟩

/-- Each question with at least one option contributes an input named
`inputName q` to the rendered form. -/
theorem input_mem_renderInputs (qs : List Question) (sel : String → String → Bool)
    (q : Question) (hq : q ∈ qs) (o : QOpt) (ho : o ∈ q.options) :
    (⟨inputName q, o.label, sel (inputName q) o.label⟩ : Inp) ∈
      renderInputs qs sel := by
  unfold renderInputs
  refine List.mem_flatMap.mpr ⟨q, hq, ?_⟩
  exact List.mem_map.mpr ⟨o, ho, rfl⟩

/-- Every rendered input is named after one of the questions. -/
theorem renderInputs_names (qs : List Question) (sel : String → String → Bool)
    (i : Inp) (hi : i ∈ renderInputs qs sel) :
    ∃ q, q ∈ qs ∧ i.name = inputName q := by
  unfold renderInputs at hi
  rcases List.mem_flatMap.mp hi with ⟨q, hq, hmem⟩
  rcases List.mem_map.mp hmem with ⟨o, _, he⟩
  exact ⟨q, hq, by rw [← he]⟩

end Quizlan

/-- C5: answer collection at submit time gives every rendered question that
has at least one option (and hence at least one input) a key in the
serialized mapping; concretely, a single-select question with B chosen
serializes to exactly `["B"]`, a multi-select question with A and C chosen
to the two-element list `["A", "C"]` (DOM order), and a question with no
selection to the empty list under its key — never an omitted key. -/
theorem C5_answer_collection :
    (∀ (qs : List Quizlan.Question) (sel : String → String → Bool)
        (q : Quizlan.Question), q ∈ qs → q.options ≠ [] →
      Quizlan.derivedKey q ∈
        Quizlan.keysOf (Quizlan.serializeAnswers (Quizlan.renderInputs qs sel))) ∧
    Quizlan.serializeAnswers (Quizlan.renderInputs
      [⟨"1", "t", false, [⟨"A", "u"⟩, ⟨"B", "v"⟩, ⟨"C", "w"⟩]⟩]
      (fun _ v => v == "B")) = [("1", ["B"])] ∧
    Quizlan.serializeAnswers (Quizlan.renderInputs
      [⟨"2", "t", true, [⟨"A", "u"⟩, ⟨"B", "v"⟩, ⟨"C", "w"⟩]⟩]
      (fun _ v => v == "A" || v == "C")) = [("2", ["A", "C"])] ∧
    Quizlan.serializeAnswers (Quizlan.renderInputs
      [⟨"3", "t", false, [⟨"A", "u"⟩, ⟨"B", "v"⟩, ⟨"C", "w"⟩]⟩]
      (fun _ _ => false)) = [("3", [])] := by
  refine ⟨?_, by decide, by decide, by decide⟩
  intro qs sel q hq hopts
  obtain ⟨o, ho⟩ : ∃ o, o ∈ q.options := by
    cases hqo : q.options with
    | nil => exact absurd hqo hopts
    | cons a t => exact ⟨a, List.mem_cons_self a t⟩
  have hin := Quizlan.input_mem_renderInputs qs sel q hq o ho
  have h1 : Quizlan.stripBox (Quizlan.inputName q) ∈
      Quizlan.keysOf (Quizlan.collectAnswers (Quizlan.renderInputs qs sel)) :=
    Quizlan.stripBox_mem_keysOf_foldl (Quizlan.renderInputs qs sel) [] _ hin
  rcases List.mem_map.mp h1 with ⟨p, hp, hfst⟩
  have h2 := Quizlan.fmtKey_mem_keysOf_foldl
    (Quizlan.collectAnswers (Quizlan.renderInputs qs sel)) [] p hp
  rw [hfst] at h2
  exact h2

/-- C5 witness: the universal part at the concrete single-select question —
its derived key `1` is a key of the serialized mapping. -/
theorem C5_answer_collection_witness :
    Quizlan.derivedKey ⟨"1", "t", false, [⟨"A", "u"⟩, ⟨"B", "v"⟩, ⟨"C", "w"⟩]⟩ ∈
      Quizlan.keysOf (Quizlan.serializeAnswers (Quizlan.renderInputs
        [⟨"1", "t", false, [⟨"A", "u"⟩, ⟨"B", "v"⟩, ⟨"C", "w"⟩]⟩]
        (fun _ v => v == "B"))) :=
  C5_answer_collection.1
    [⟨"1", "t", false, [⟨"A", "u"⟩, ⟨"B", "v"⟩, ⟨"C", "w"⟩]⟩]
    (fun _ v => v == "B")
    ⟨"1", "t", false, [⟨"A", "u"⟩, ⟨"B", "v"⟩, ⟨"C", "w"⟩]⟩
    (by decide) (by decide)

/-- C6 counterexample: for the question id `a_b` — an id containing an
underscore — the key of the serialized answer set is `a`, which is not the
id of any question in the set, because `k.split('_')[1]` keeps only the
segment of the id before its first underscore. -/
theorem C6_counterexample :
    Quizlan.keysOf (Quizlan.serializeAnswers (Quizlan.renderInputs
      [⟨"a_b", "t", false, [⟨"A", "u"⟩]⟩] (fun _ _ => false))) = ["a"] ∧
    ¬ ("a" ∈ ([⟨"a_b", "t", false, [⟨"A", "u"⟩]⟩] :
        List Quizlan.Question).map Quizlan.Question.id) := by decide

/-- C6 amended: every key of the serialized answer set is the derived key
of some question of the fetched question set — the question's input name
with its first `[]` stripped and then the segment after the first
underscore.  For ids without underscores (and without `[]`) this is the id
itself, but an id containing an underscore is truncated to its first
segment, so such a key need not be a question id. -/
theorem C6_keys_are_derived :
    ∀ (qs : List Quizlan.Question) (sel : String → String → Bool) (k : String),
      k ∈ Quizlan.keysOf (Quizlan.serializeAnswers (Quizlan.renderInputs qs sel)) →
      ∃ q, q ∈ qs ∧ k = Quizlan.derivedKey q := by
  intro qs sel k hk
  rcases Quizlan.keysOf_foldl_upsert_sub
      (Quizlan.collectAnswers (Quizlan.renderInputs qs sel)) [] k hk with
    h | ⟨p, hp, he⟩
  · simp [Quizlan.keysOf] at h
  · have hp1 : p.1 ∈
        Quizlan.keysOf (Quizlan.collectAnswers (Quizlan.renderInputs qs sel)) :=
      List.mem_map.mpr ⟨p, hp, rfl⟩
    rcases Quizlan.keysOf_foldl_addInput_sub (Quizlan.renderInputs qs sel) [] _ hp1
      with h2 | ⟨i, hi, he2⟩
    · simp [Quizlan.keysOf] at h2
    · rcases Quizlan.renderInputs_names qs sel i hi with ⟨q, hq, hname⟩
      refine ⟨q, hq, ?_⟩
      rw [he, he2, hname]
      rfl

/-- C6 witness: the amended statement at a concrete underscore-free id —
key `1` is the derived key of the only question. -/
theorem C6_keys_are_derived_witness :
    ∃ q, q ∈ ([⟨"1", "t", false, [⟨"A", "u"⟩]⟩] : List Quizlan.Question) ∧
      "1" = Quizlan.derivedKey q :=
  C6_keys_are_derived [⟨"1", "t", false, [⟨"A", "u"⟩]⟩]
    (fun _ _ => true) "1" (by decide)

namespace Quizlan

/-- The only join request `joinQuiz` can issue carries exactly the
`currentCode` it was handed. -/
theorem joinQuiz_joinReq (cls nm code : String) (env : JoinEnv) (c : String)
    (h : Req.joinReq c ∈ (joinQuiz cls nm code env).2) : c = code := by
  unfold joinQuiz at h
  split_ifs at h <;> simp at h
  all_goals exact h

/-- Every landing-page event preserves the verified-code invariant. -/
theorem stepL_inv (s : Landing) (e : LEv) (h : LandingInv s) :
    LandingInv (stepL s e).1 := by
  cases e with
  | check input ok err =>
    unfold stepL checkCode
    by_cases h0 : trimStr input = ""
    · simpa [h0, LandingInv] using h
    · cases ok
      · simpa [h0, LandingInv] using h
      · simp [h0, LandingInv]
  | join cls nm env =>
    unfold stepL
    by_cases hv : s.studentFormVisible
    · rcases hj : joinQuiz cls nm s.currentCode env with ⟨out, reqs⟩
      cases out <;> simp [hv, hj, LandingInv] <;> exact h hv
    · simpa [hv] using h

/-- The ghost list of verified codes only grows. -/
theorem stepL_verified_mono (s : Landing) (e : LEv) (c : String)
    (h : c ∈ s.verified) : c ∈ (stepL s e).1.verified := by
  cases e with
  | check input ok err =>
    unfold stepL checkCode
    by_cases h0 : trimStr input = ""
    · simpa [h0] using h
    · cases ok
      · simpa [h0] using h
      · simp [h0]
        exact Or.inr h
  | join cls nm env =>
    unfold stepL
    by_cases hv : s.studentFormVisible
    · rcases hj : joinQuiz cls nm s.currentCode env with ⟨out, reqs⟩
      cases out <;> simp [hv, hj] <;> exact h
    · simpa [hv] using h

/-- The ghost list of verified codes only grows along a run. -/
theorem runL_verified_mono (evs : List LEv) (s : Landing) (c : String)
    (h : c ∈ s.verified) : c ∈ (runL s evs).1.verified := by
  induction evs generalizing s with
  | nil => exact h
  | cons e es ih => exact ih _ (stepL_verified_mono s e c h)

/-- A join request can only arise from a join event on the visible student
form, and it carries the retained `currentCode`. -/
theorem stepL_joinReq (s : Landing) (e : LEv) (c : String)
    (h : Req.joinReq c ∈ (stepL s e).2) :
    s.studentFormVisible = true ∧ c = s.currentCode := by
  cases e with
  | check input ok err =>
    unfold stepL checkCode at h
    by_cases h0 : trimStr input = ""
    · simp [h0] at h
    · cases ok <;> simp [h0] at h
  | join cls nm env =>
    unfold stepL at h
    by_cases hv : s.studentFormVisible
    · rcases hj : joinQuiz cls nm s.currentCode env with ⟨out, reqs⟩
      have hreq : Req.joinReq c ∈ reqs := by
        cases out <;> simpa [hv, hj] using h
      refine ⟨by simpa using hv, ?_⟩
      exact joinQuiz_joinReq cls nm s.currentCode env c (by rw [hj]; exact hreq)
    · simp [hv] at h

/-- Along any run from a state satisfying the invariant, every join request
carries a code from the final verified list. -/
theorem runL_joinReq_verified (evs : List LEv) (s : Landing)
    (hInv : LandingInv s) (c : String)
    (h : Req.joinReq c ∈ (runL s evs).2) :
    c ∈ (runL s evs).1.verified := by
  induction evs generalizing s with
  | nil => simp [runL] at h
  | cons e es ih =>
    simp only [runL] at h ⊢
    rcases List.mem_append.mp h with h1 | h1
    · rcases stepL_joinReq s e c h1 with ⟨hv, rfl⟩
      exact runL_verified_mono es _ _ (stepL_verified_mono s e _ (hInv hv))
    · exact ih _ (stepL_inv s e hInv) h1

end Quizlan

/-- C8: along every event sequence on the landing page started in its
initial state, every call of the join endpoint carries an access code that
previously passed a successful access-code check (it is in the ghost list
of codes `/api/check_code` answered `ok: true` for).  The join button lives
in the student form, which the markup keeps hidden until `checkCode`
reveals it on success, so a join event can only act once a code has been
verified — and `joinQuiz` then sends exactly the retained verified code. -/
theorem C8_join_code_verified :
    ∀ (evs : List Quizlan.LEv) (c : String),
      Quizlan.Req.joinReq c ∈ (Quizlan.runL Quizlan.initLanding evs).2 →
      c ∈ (Quizlan.runL Quizlan.initLanding evs).1.verified := by
  intro evs c h
  exact Quizlan.runL_joinReq_verified evs Quizlan.initLanding
    (fun hv => absurd hv (by decide)) c h

/-- C8 witness: after a successful check of the (trimmed) code `AB` and a
successful join, the join request carried `AB`, which the run verified. -/
theorem C8_join_code_verified_witness :
    "AB" ∈ (Quizlan.runL Quizlan.initLanding
      [Quizlan.LEv.check " AB " true none,
       Quizlan.LEv.join "10A" "An" ⟨true, none, true, "Q9", none⟩]).1.verified :=
  C8_join_code_verified
    [Quizlan.LEv.check " AB " true none,
     Quizlan.LEv.join "10A" "An" ⟨true, none, true, "Q9", none⟩]
    "AB" (by decide)
